import Mathlib

/-
Shallow embedding of LibOS/shim/include/shim_tls.h (Graphene-SGX shim
per-thread control block layer).

Pointers are modelled as natural-number addresses; C integers as Nat
(unsigned) or Int (signed, where underflow matters).  The inline accessors
shim_tls_check_canary / shim_get_tls / shim_libc_tcb are translated from
the header (the non-GS, %fs-relative branch); operations that the header
only declares or documents (init_tcb, the preemption protocol, the lock
audit trail, the fault-redirect protocol) are modelled from the spec and
marked as such in their doc comments.
-/

namespace Graphene

/-- C: `#define SHIM_TLS_CANARY 0xdeadbeef` (shim_tls.h line 19). -/
def SHIM_TLS_CANARY : Nat := 0xdeadbeef

/-- C: `#define SHIM_FLAG_SIGPENDING 0` — bit index of the signal-pending
bit in the TCB flags word (shim_tls.h line 4). -/
def SHIM_FLAG_SIGPENDING : Nat := 0

/-- C: `#define NUM_LOCK_RECORD 32` (shim_tls.h line 28). -/
def NUM_LOCK_RECORD : Nat := 32

/-- C: `#define NUM_LOCK_RECORD_MASK (NUM_LOCK_RECORD - 1)` (line 29). -/
def NUM_LOCK_RECORD_MASK : Nat := NUM_LOCK_RECORD - 1

/-- C: `#define SIGNAL_DELAYED (0x40000000L)` (shim_tls.h line 63). -/
def SIGNAL_DELAYED : Int := 0x40000000

/-- C: `struct atomic_int { volatile int64_t counter; }` (lines 10-12).
Signed counter; overflow of int64 is undefined behaviour in C, so the
counter is embedded as an unbounded Int. -/
structure atomic_int where
  counter : Int

/-- C: the anonymous enum `{ NO_LOCK, SEM_LOCK, READ_LOCK, WRITE_LOCK }`
tagging a lock_record (line 22). -/
inductive lock_type where
  | NO_LOCK
  | SEM_LOCK
  | READ_LOCK
  | WRITE_LOCK

/-- C: `struct lock_record` (lines 21-26).  `lock` and `filename` are
pointers (addresses). -/
structure lock_record where
  type : lock_type
  lock : Nat
  filename : Nat
  lineno : Int

/-- C: `struct shim_regs` (lines 31-50) — the register snapshot, eighteen
`unsigned long` fields in declaration order. -/
structure shim_regs where
  orig_rax : Nat
  rsp : Nat
  r15 : Nat
  r14 : Nat
  r13 : Nat
  r12 : Nat
  r11 : Nat
  r10 : Nat
  r9 : Nat
  r8 : Nat
  rcx : Nat
  rdx : Nat
  rsi : Nat
  rdi : Nat
  rbx : Nat
  rbp : Nat
  rflags : Nat
  rip : Nat

/-- The declaration order of the eighteen register-snapshot fields of
`struct shim_regs`, transcribed from lines 32-49 of the header. -/
def shim_regs.toList (r : shim_regs) : List Nat :=
  [r.orig_rax, r.rsp, r.r15, r.r14, r.r13, r.r12, r.r11, r.r10, r.r9,
   r.r8, r.rcx, r.rdx, r.rsi, r.rdi, r.rbx, r.rbp, r.rflags, r.rip]

/-- C: `struct shim_context` (lines 52-57).  `regs` is a nullable pointer
to a register snapshot (modelled by its pointee, or none when null);
`next` is a raw pointer (address) forming the context stack. -/
structure shim_context where
  regs : Option shim_regs
  next : Nat
  enter_time : Nat
  preempt : atomic_int

/-- C: the anonymous `test_range` struct inside shim_tcb (lines 87-90):
`{ void *start, *end; void *cont_addr; }`.  The C field `end` is a Lean
keyword and is rendered `end_`. -/
structure test_range_t where
  start : Nat
  end_ : Nat
  cont_addr : Nat

/-- C: `struct shim_tcb` (lines 70-91), without the optional
SHIM_SYSCALL_STACK field.  `tp` and `debug_buf` are pointers (addresses). -/
structure shim_tcb where
  canary : Nat
  self : Nat
  tp : Nat
  context : shim_context
  tid : Nat
  pal_errno : Int
  debug_buf : Nat
  flags : Nat
  test_range : test_range_t

/-- C: `typedef struct shim_tcb shim_tcb_t` (line 69). -/
abbrev shim_tcb_t := shim_tcb

/-- C: `struct __libc_tcb_t` (lines 131-140, the non-SHIM_TCB_USE_GS
branch): the ten glibc-internal members duplicated from glibc's tls.h,
followed by the embedded shim TCB as the last member. -/
structure __libc_tcb_t where
  tcb : Nat
  dtv : Nat
  self : Nat
  mthreads : Int
  gscope : Int
  sysinfo : Nat
  sg : Nat
  pg : Nat
  vgetcpu_cache : Nat × Nat
  __unused1 : Int
  shim_tcb : shim_tcb_t

/-- C: `shim_tls_check_canary` (lines 142-148): reads the 64-bit canary
field at `%fs:offsetof(__libc_tcb_t, shim_tcb.canary)` and compares it
with SHIM_TLS_CANARY.  The read is a field projection of the current
thread's `__libc_tcb_t`. -/
def shim_tls_check_canary (m : __libc_tcb_t) : Bool :=
  m.shim_tcb.canary == SHIM_TLS_CANARY

/-- C: `shim_get_tls` (lines 150-156): reads the pointer stored in the
`self` field at `%fs:offsetof(__libc_tcb_t, shim_tcb.self)`. -/
def shim_get_tls (m : __libc_tcb_t) : Nat :=
  m.shim_tcb.self

/-- C: `shim_libc_tcb` (lines 158-164): reads the pointer stored in the
glibc-internal `tcb` field at `%fs:offsetof(__libc_tcb_t, tcb)`. -/
def shim_libc_tcb (m : __libc_tcb_t) : Nat :=
  m.tcb

/-- Modelled from the spec: `init_tcb` is only declared in the header
(line 97, `void init_tcb(shim_tcb_t *tcb)`); its body is not under src/.
Spec §4.1: zeroes/defaults all fields, writes the canary constant, sets
`self` to the TCB's own address `a`, records the thread identifier. -/
def init_tcb (a : Nat) (tid : Nat) : shim_tcb :=
  { canary := SHIM_TLS_CANARY
    self := a
    tp := 0
    context := { regs := none, next := 0, enter_time := 0, preempt := ⟨0⟩ }
    tid := tid
    pal_errno := 0
    debug_buf := 0
    flags := 0
    test_range := { start := 0, end_ := 0, cont_addr := 0 } }

/-- The preemption counter of a TCB: `tcb->context.preempt.counter`. -/
def preempt_count (t : shim_tcb) : Int :=
  t.context.preempt.counter

/-- Store `v` into `tcb->context.preempt.counter`. -/
def set_preempt (t : shim_tcb) (v : Int) : shim_tcb :=
  { t with context := { t.context with preempt := ⟨v⟩ } }

/-- The signal-pending bit: bit SHIM_FLAG_SIGPENDING (= 0) of the TCB
flags word. -/
def sigpending (t : shim_tcb) : Bool :=
  t.flags.testBit SHIM_FLAG_SIGPENDING

/-- Set the signal-pending bit: `flags |= 1 << SHIM_FLAG_SIGPENDING`. -/
def set_sigpending (t : shim_tcb) : shim_tcb :=
  { t with flags := t.flags ||| (1 <<< SHIM_FLAG_SIGPENDING) }

/-- Clear the signal-pending bit (bit 0 of the flags word): the upper
bits are kept, bit 0 is zeroed. -/
def clear_sigpending (t : shim_tcb) : shim_tcb :=
  { t with flags := t.flags >>> 1 <<< 1 }

/-- Modelled from the spec: `disable_preempt` is not under src/ (only the
`shim_context.preempt` counter it updates is declared).  Spec §4.2:
atomically increments preempt-count. -/
def disable_preempt (t : shim_tcb) : shim_tcb :=
  set_preempt t (preempt_count t + 1)

/-- Modelled from the spec: `enable_preempt` is not under src/.  Spec
§4.2/§7: decrements preempt-count; on the 1-to-0 crossing with the
pending bit set it clears the bit (the deferred signal is delivered at
that crossing — delivery is accounted by `delivers`); the decrement is
never clamped at zero. -/
def enable_preempt (t : shim_tcb) : shim_tcb :=
  if preempt_count t = 1 ∧ sigpending t = true then
    clear_sigpending (set_preempt t 0)
  else
    set_preempt t (preempt_count t - 1)

/-- Modelled from the spec: external signal arrival (spec §4.2/§6) is not
under src/.  While preemption is disabled (count > 0) the pending bit is
set and the signal is not delivered; at count 0 the signal is delivered
directly (accounted by `delivers`) and the TCB is unchanged. -/
def signal_arrive (t : shim_tcb) : shim_tcb :=
  if 0 < preempt_count t then set_sigpending t else t

/-- Modelled from the spec: `begin_probe` (spec §4.4) is not under src/
(only the `test_range` field it fills is declared): installs the
unsafe-region descriptor {start, end, continuation} on the TCB. -/
def begin_probe (t : shim_tcb) (s e c : Nat) : shim_tcb :=
  { t with test_range := { start := s, end_ := e, cont_addr := c } }

/-- Modelled from the spec: `end_probe` (spec §4.4) is not under src/:
clears the unsafe-region descriptor (all fields zero / absent). -/
def end_probe (t : shim_tcb) : shim_tcb :=
  { t with test_range := { start := 0, end_ := 0, cont_addr := 0 } }

/-- The cleared (absent) unsafe-region descriptor: spec §3, zero/absent
when no probe is in progress. -/
def test_range_cleared : test_range_t :=
  { start := 0, end_ := 0, cont_addr := 0 }

/-- An unsafe-region descriptor is active when it is not the cleared
(all-zero) descriptor. -/
def test_range_active (r : test_range_t) : Bool :=
  !(r.start == 0 && r.end_ == 0 && r.cont_addr == 0)

/-- Modelled from the spec: the fault handler is not under src/ (the
header only declares the `test_range` field it consults, lines 84-90).
Spec §4.4: on a fault at `addr` the handler consults the descriptor; if
a descriptor is active and `addr` lies in [start, end), it clears the
descriptor and redirects execution to the continuation address (returned
as `some cont_addr`); otherwise it does not redirect (`none`). -/
def handle_fault (t : shim_tcb) (addr : Nat) : shim_tcb × Option Nat :=
  if test_range_active t.test_range = true ∧
      t.test_range.start ≤ addr ∧ addr < t.test_range.end_ then
    (end_probe t, some t.test_range.cont_addr)
  else
    (t, none)

/-- The operations of this core that run on a thread's TCB after
initialization. -/
inductive TcbOp where
  | disable
  | enable
  | signal
  | beginProbe (s e c : Nat)
  | endProbe
  | fault (addr : Nat)

/-- One operation applied to a TCB. -/
def stepTcb : TcbOp → shim_tcb → shim_tcb
  | .disable, t => disable_preempt t
  | .enable, t => enable_preempt t
  | .signal, t => signal_arrive t
  | .beginProbe s e c, t => begin_probe t s e c
  | .endProbe, t => end_probe t
  | .fault a, t => (handle_fault t a).1

/-- Whether an operation delivers a signal to the thread in state `t`:
`enable` delivers exactly on the 1-to-0 crossing with the pending bit
set; a signal arriving while preemption is not disabled is delivered
directly (spec §4.2). -/
def delivers : TcbOp → shim_tcb → Bool
  | .enable, t => decide (preempt_count t = 1) && sigpending t
  | .signal, t => decide (preempt_count t ≤ 0)
  | _, _ => false

/-- A thread's TCB together with a ghost count of signal deliveries,
used to state delivery-exactness properties. -/
structure MachState where
  tcb : shim_tcb
  delivered : Nat

/-- One machine step: apply the operation to the TCB and account a
delivery when the operation delivers. -/
def MachState.step (s : MachState) (op : TcbOp) : MachState :=
  ⟨stepTcb op s.tcb, s.delivered + (if delivers op s.tcb then 1 else 0)⟩

/-- Run a list of operations left to right. -/
def MachState.run (s : MachState) (ops : List TcbOp) : MachState :=
  ops.foldl MachState.step s

/-- Properly nested disable/enable sequences with signal arrivals
interleaved at arbitrary points: `wrap inner rest` is
`disable; inner; enable; rest`, `sig rest` is a signal arrival followed
by `rest`. -/
inductive SNest where
  | done
  | sig (rest : SNest)
  | wrap (inner rest : SNest)

/-- The operation sequence denoted by a nesting. -/
def SNest.toOps : SNest → List TcbOp
  | .done => []
  | .sig r => TcbOp.signal :: r.toOps
  | .wrap i r => TcbOp.disable :: (i.toOps ++ TcbOp.enable :: r.toOps)

/-- A nesting with no signal arrivals (pure disable/enable pairs). -/
def SNest.sigFree : SNest → Prop
  | .done => True
  | .sig _ => False
  | .wrap i r => i.sigFree ∧ r.sigFree

/-- The number of disable/enable pairs in a nesting. -/
def SNest.pairs : SNest → Nat
  | .done => 0
  | .sig r => r.pairs
  | .wrap i r => i.pairs + r.pairs + 1

/-- All states reached strictly after the start of a run keep a
non-negative preemption counter. -/
def nonnegAfter : MachState → List TcbOp → Prop
  | _, [] => True
  | s, op :: l => 0 ≤ preempt_count (s.step op).tcb ∧ nonnegAfter (s.step op) l

/-- A thread's view of memory for the TCB access layer: `mem a` is the
shim TCB stored at address `a`; `tls_addr` is the address of the current
thread's TCB — the fixed %fs-relative location
`offsetof(__libc_tcb_t, shim_tcb)` inside the thread's host runtime
block. -/
structure ThreadMem where
  mem : Nat → shim_tcb
  tls_addr : Nat

/-- Memory-level semantics of `shim_get_tls` (lines 150-156): the
%fs-relative read returns the value stored in the `self` field of the
TCB at the thread's fixed TLS location, and reads nothing else. -/
def shim_get_tls_mem (tm : ThreadMem) : Nat :=
  (tm.mem tm.tls_addr).self

/-- `current()` (spec §4.1): the TCB designated by the pointer that
`shim_get_tls` returns. -/
def current (tm : ThreadMem) : shim_tcb :=
  tm.mem (shim_get_tls_mem tm)

/-- Modelled from the spec: the thread admission hook (spec §6) runs
`init_tcb` on the thread's own TCB, i.e. on the TCB at the thread's TLS
location, so `self` is set to that location's address. -/
def initMem (tm : ThreadMem) (tid : Nat) : ThreadMem :=
  { tm with mem := Function.update tm.mem tm.tls_addr (init_tcb tm.tls_addr tid) }

/-- A TCB operation applied by the owning thread to its own TCB in
memory. -/
def ThreadMem.stepMem (tm : ThreadMem) (op : TcbOp) : ThreadMem :=
  { tm with mem := Function.update tm.mem tm.tls_addr (stepTcb op (tm.mem tm.tls_addr)) }

/-- Run a list of TCB operations on the thread's memory. -/
def ThreadMem.runMem (tm : ThreadMem) (ops : List TcbOp) : ThreadMem :=
  ops.foldl ThreadMem.stepMem tm

/-- Modelled from the spec: the lock audit trail (spec §4.3).  The entry
layout (`struct lock_record`) and the capacity constants are declared in
the header, but the trail storage and `record` are not under src/.
`slots i` is the entry in slot `i` (meaningful for i < NUM_LOCK_RECORD);
`pos` counts the entries recorded so far. -/
structure lock_trail where
  slots : Nat → lock_record
  pos : Nat

/-- Modelled from the spec: `record(kind, lock_identity, location)`
(spec §4.3) writes one entry at slot `pos & NUM_LOCK_RECORD_MASK`
(index-mask wraparound), overwriting whatever was there, and advances
`pos`.  It is total: it never blocks and never fails. -/
def record (e : lock_record) (tr : lock_trail) : lock_trail :=
  { slots := fun i => if i = tr.pos &&& NUM_LOCK_RECORD_MASK then e else tr.slots i
    pos := tr.pos + 1 }

/-- Record a list of entries in order. -/
def recordAll (es : List lock_record) (tr : lock_trail) : lock_trail :=
  es.foldl (fun tr e => record e tr) tr

/-- Modelled from the spec: a shim operation acting on the TCB embedded
in the thread's host runtime block touches only the `shim_tcb` member. -/
def stepLibc (op : TcbOp) (m : __libc_tcb_t) : __libc_tcb_t :=
  { m with shim_tcb := stepTcb op m.shim_tcb }

/-- Run a list of TCB operations on the embedded TCB. -/
def runLibc (ops : List TcbOp) (m : __libc_tcb_t) : __libc_tcb_t :=
  ops.foldl (fun m op => stepLibc op m) m

/-- Modelled from the spec: `init(tcb)` run on the TCB embedded in the
host runtime block at address `a` (spec §4.1/§6). -/
def init_libc (m : __libc_tcb_t) (a tid : Nat) : __libc_tcb_t :=
  { m with shim_tcb := init_tcb a tid }

/-- A concrete host-runtime block used to instantiate theorems. -/
def libc0 : __libc_tcb_t :=
  ⟨0, 0, 0, 0, 0, 0, 0, 0, (0, 0), 0, init_tcb 0 0⟩

/-- A concrete host-runtime block whose embedded canary has the low 32
bits of the canary constant but a non-zero high half. -/
def libcBig : __libc_tcb_t :=
  ⟨0, 0, 0, 0, 0, 0, 0, 0, (0, 0), 0,
    { init_tcb 0 0 with canary := 0x1deadbeef }⟩

/-- A family of concrete host-runtime blocks that agree everywhere except
in the glibc-internal `tcb` member. -/
def c7_libc (v : Nat) : __libc_tcb_t :=
  ⟨v, 0, 0, 0, 0, 0, 0, 0, (0, 0), 0, init_tcb 0 0⟩

/-- A concrete lock-trail entry. -/
def rec0 : lock_record :=
  ⟨.NO_LOCK, 0, 0, 0⟩

/-- A concrete fresh lock trail. -/
def trail0 : lock_trail :=
  ⟨fun _ => rec0, 0⟩

/-- A concrete thread memory: every address holds a default TCB, and the
thread's TLS location is address 1000. -/
def mem0 : ThreadMem :=
  ⟨fun _ => init_tcb 0 0, 1000⟩

theorem preempt_count_set_preempt (t : shim_tcb) (v : Int) :
    preempt_count (set_preempt t v) = v := rfl

theorem sigpending_set_preempt (t : shim_tcb) (v : Int) :
    sigpending (set_preempt t v) = sigpending t := rfl

theorem preempt_count_set_sigpending (t : shim_tcb) :
    preempt_count (set_sigpending t) = preempt_count t := rfl

theorem preempt_count_clear_sigpending (t : shim_tcb) :
    preempt_count (clear_sigpending t) = preempt_count t := rfl

theorem sigpending_set_sigpending (t : shim_tcb) :
    sigpending (set_sigpending t) = true := by
  simp [sigpending, set_sigpending, SHIM_FLAG_SIGPENDING]

theorem sigpending_clear_sigpending (t : shim_tcb) :
    sigpending (clear_sigpending t) = false := by
  simp [sigpending, clear_sigpending, SHIM_FLAG_SIGPENDING]

theorem set_preempt_set_preempt (t : shim_tcb) (v w : Int) :
    set_preempt (set_preempt t v) w = set_preempt t w := rfl

theorem set_preempt_self (t : shim_tcb) :
    set_preempt t (preempt_count t) = t := by
  obtain ⟨c, s, tp, ⟨rg, nx, et, ⟨p⟩⟩, ti, pe, db, fl, tr⟩ := t
  rfl

theorem preempt_count_disable (t : shim_tcb) :
    preempt_count (disable_preempt t) = preempt_count t + 1 := rfl

theorem sigpending_disable (t : shim_tcb) :
    sigpending (disable_preempt t) = sigpending t := rfl

theorem run_nil (s : MachState) : s.run [] = s := rfl

theorem run_cons (s : MachState) (op : TcbOp) (l : List TcbOp) :
    s.run (op :: l) = (s.step op).run l := rfl

theorem run_append (s : MachState) (a b : List TcbOp) :
    s.run (a ++ b) = (s.run a).run b := by
  simp [MachState.run, List.foldl_append]

theorem nonnegAfter_append (a : List TcbOp) :
    ∀ (s : MachState) (b : List TcbOp),
      nonnegAfter s (a ++ b) ↔ nonnegAfter s a ∧ nonnegAfter (s.run a) b := by
  induction a with
  | nil => intro s b; simp [nonnegAfter, run_nil]
  | cons op l ih =>
    intro s b
    simp only [List.cons_append, nonnegAfter, run_cons, List.append_eq]
    rw [ih (s.step op) b]
    exact and_assoc.symm

/-- Every operation of this core leaves the TCB canary unchanged. -/
theorem stepTcb_canary (op : TcbOp) (t : shim_tcb) :
    (stepTcb op t).canary = t.canary := by
  cases op <;>
    simp only [stepTcb, disable_preempt, enable_preempt, signal_arrive,
      begin_probe, end_probe, handle_fault, set_preempt, set_sigpending,
      clear_sigpending] <;>
    (try split) <;> rfl

/-- Every operation of this core leaves the TCB self pointer unchanged. -/
theorem stepTcb_self (op : TcbOp) (t : shim_tcb) :
    (stepTcb op t).self = t.self := by
  cases op <;>
    simp only [stepTcb, disable_preempt, enable_preempt, signal_arrive,
      begin_probe, end_probe, handle_fault, set_preempt, set_sigpending,
      clear_sigpending] <;>
    (try split) <;> rfl

/-- Every operation of this core leaves the captured register snapshot
unchanged. -/
theorem stepTcb_regs (op : TcbOp) (t : shim_tcb) :
    (stepTcb op t).context.regs = t.context.regs := by
  cases op <;>
    simp only [stepTcb, disable_preempt, enable_preempt, signal_arrive,
      begin_probe, end_probe, handle_fault, set_preempt, set_sigpending,
      clear_sigpending] <;>
    (try split) <;> rfl

theorem step_disable (s : MachState) :
    s.step .disable = ⟨disable_preempt s.tcb, s.delivered⟩ := by
  simp [MachState.step, delivers, stepTcb]

theorem delivers_disable (t : shim_tcb) : delivers .disable t = false := rfl

/-- An enable that does not cross from 1 to 0 — here, one immediately
preceded by a disable from a positive count — is a plain decrement that
undoes the disable. -/
theorem enable_disable_tcb (t : shim_tcb) (h : ¬ preempt_count t + 1 = 1) :
    enable_preempt (disable_preempt t) = t := by
  rw [enable_preempt,
    if_neg (by rw [preempt_count_disable]; rintro ⟨h1, -⟩; exact h h1),
    preempt_count_disable, disable_preempt, set_preempt_set_preempt,
    show preempt_count t + 1 - 1 = preempt_count t from by omega]
  exact set_preempt_self t

theorem delivers_enable_disable (t : shim_tcb) (h : ¬ preempt_count t + 1 = 1) :
    delivers .enable (disable_preempt t) = false := by
  simp only [delivers, preempt_count_disable, sigpending_disable]
  simp [h]

/-- `disable; enable` from a state whose counter is already positive is
the identity: the enable fires at a count of at least 2, so it only
decrements. -/
theorem step_disable_enable (s : MachState) (hs : 1 ≤ preempt_count s.tcb) :
    (s.step .disable).step .enable = s := by
  obtain ⟨t, d⟩ := s
  have hs' : 1 ≤ preempt_count t := hs
  have h : ¬ preempt_count t + 1 = 1 := by omega
  show MachState.step (MachState.step ⟨t, d⟩ .disable) .enable = ⟨t, d⟩
  simp [MachState.step, stepTcb, delivers_disable, delivers_enable_disable t h,
    enable_disable_tcb t h]

/-- A properly nested, signal-free disable/enable sequence run from a
state with positive preemption count is a no-op on the whole machine
state: every enable inside it fires at a count of at least 2, so there is
no 1-to-0 crossing, no delivery, and no state-machine transition. -/
theorem run_sigFree_id (n : SNest) :
    n.sigFree → ∀ s : MachState, 1 ≤ preempt_count s.tcb → s.run n.toOps = s := by
  induction n with
  | done => intro _ s _; rfl
  | sig r ih =>
    intro h
    simp [SNest.sigFree] at h
  | wrap i r ih1 ih2 =>
    intro h s hs
    obtain ⟨hi, hr⟩ := h
    have h1 : 1 ≤ preempt_count ((s.step .disable)).tcb := by
      rw [step_disable]
      simp only [preempt_count_disable]
      omega
    calc s.run (SNest.wrap i r).toOps
        = ((s.step .disable).run i.toOps).run (TcbOp.enable :: r.toOps) := by
          simp [SNest.toOps, run_cons, run_append]
      _ = (s.step .disable).run (TcbOp.enable :: r.toOps) := by
          rw [ih1 hi _ h1]
      _ = ((s.step .disable).step .enable).run r.toOps := by
          rw [run_cons]
      _ = s.run r.toOps := by rw [step_disable_enable s hs]
      _ = s := ih2 hr s hs

theorem preempt_count_signal (t : shim_tcb) :
    preempt_count (signal_arrive t) = preempt_count t := by
  rw [signal_arrive]; split <;> rfl

theorem signal_arrive_at_zero (t : shim_tcb) (h : preempt_count t = 0) :
    signal_arrive t = t := by
  rw [signal_arrive, if_neg (by omega)]

/-- An enable that is not at count 1 is a plain decrement. -/
theorem enable_not_one (t : shim_tcb) (h : ¬ preempt_count t = 1) :
    enable_preempt t = set_preempt t (preempt_count t - 1) := by
  rw [enable_preempt, if_neg (by rintro ⟨h1, -⟩; exact h h1)]

theorem delivers_enable_not_one (t : shim_tcb) (h : ¬ preempt_count t = 1) :
    delivers .enable t = false := by
  simp [delivers, h]

/-- An enable at count 1 always lands at count 0 with the pending bit
clear, whether or not a signal was pending. -/
theorem enable_at_one_count (t : shim_tcb) (h : preempt_count t = 1) :
    preempt_count (enable_preempt t) = 0 ∧ sigpending (enable_preempt t) = false := by
  rw [enable_preempt]
  by_cases hp : sigpending t = true
  · rw [if_pos ⟨h, hp⟩]
    exact ⟨rfl, sigpending_clear_sigpending _⟩
  · rw [if_neg (by rintro ⟨-, hc⟩; exact hp hc)]
    refine ⟨?_, ?_⟩
    · rw [preempt_count_set_preempt, h]
      norm_num
    · rw [sigpending_set_preempt]
      simpa using hp

/-- An enable at count 1 with the pending bit set clears the bit and
delivers. -/
theorem enable_at_one_pending (t : shim_tcb) (h : preempt_count t = 1)
    (hp : sigpending t = true) :
    enable_preempt t = clear_sigpending (set_preempt t 0) ∧
      delivers .enable t = true := by
  refine ⟨?_, ?_⟩
  · rw [enable_preempt, if_pos ⟨h, hp⟩]
  · simp [delivers, h, hp]

/-- Running a properly nested sequence (with arbitrary interleaved signal
arrivals) from a positive count preserves the count and keeps the counter
non-negative throughout. -/
theorem run_nest_count (n : SNest) :
    ∀ s : MachState, 1 ≤ preempt_count s.tcb →
      preempt_count (s.run n.toOps).tcb = preempt_count s.tcb ∧ nonnegAfter s n.toOps := by
  induction n with
  | done => intro s _; exact ⟨rfl, trivial⟩
  | sig r ih =>
    intro s hs
    have hstep : preempt_count ((s.step .signal)).tcb = preempt_count s.tcb :=
      preempt_count_signal s.tcb
    obtain ⟨h1, h2⟩ := ih (s.step .signal) (by rw [hstep]; exact hs)
    refine ⟨?_, ?_, h2⟩
    · show preempt_count (((s.step .signal)).run r.toOps).tcb = _
      rw [h1, hstep]
    · rw [hstep]; omega
  | wrap i r ih1 ih2 =>
    intro s hs
    have hc1 : preempt_count (s.step .disable).tcb = preempt_count s.tcb + 1 :=
      preempt_count_disable s.tcb
    obtain ⟨hA1, hA2⟩ := ih1 (s.step .disable) (by rw [hc1]; omega)
    have hne : ¬ preempt_count ((s.step .disable).run i.toOps).tcb = 1 := by
      rw [hA1, hc1]; omega
    have hc3 : preempt_count (((s.step .disable).run i.toOps).step .enable).tcb
        = preempt_count s.tcb := by
      show preempt_count (stepTcb .enable _) = _
      simp only [stepTcb]
      rw [enable_not_one _ hne, preempt_count_set_preempt, hA1, hc1]
      omega
    obtain ⟨hB1, hB2⟩ := ih2 (((s.step .disable).run i.toOps).step .enable)
      (by rw [hc3]; exact hs)
    have hrun : s.run (SNest.wrap i r).toOps
        = ((((s.step .disable).run i.toOps).step .enable).run r.toOps) := by
      simp [SNest.toOps, run_cons, run_append]
    refine ⟨by rw [hrun, hB1, hc3], ?_, ?_⟩
    · rw [hc1]; omega
    · rw [nonnegAfter_append]
      exact ⟨hA2, ⟨by rw [hc3]; omega, hB2⟩⟩

/-- Running a properly nested sequence (with arbitrary interleaved signal
arrivals) from an idle state (count 0, no pending signal) returns to
count 0 with no pending signal, and the counter never goes negative. -/
theorem run_nest_balanced (n : SNest) :
    ∀ s : MachState, preempt_count s.tcb = 0 → sigpending s.tcb = false →
      preempt_count (s.run n.toOps).tcb = 0 ∧ sigpending (s.run n.toOps).tcb = false ∧
        nonnegAfter s n.toOps := by
  induction n with
  | done => intro s h1 h2; exact ⟨h1, h2, trivial⟩
  | sig r ih =>
    intro s h1 h2
    have ht : (s.step .signal).tcb = s.tcb := by
      show stepTcb .signal s.tcb = s.tcb
      simp only [stepTcb]
      exact signal_arrive_at_zero s.tcb h1
    obtain ⟨g1, g2, g3⟩ := ih (s.step .signal) (by rw [ht]; exact h1) (by rw [ht]; exact h2)
    exact ⟨g1, g2, by rw [ht, h1], g3⟩
  | wrap i r ih1 ih2 =>
    intro s h1 h2
    have hstep : preempt_count (s.step .disable).tcb = preempt_count s.tcb + 1 :=
      preempt_count_disable s.tcb
    have hc1 : preempt_count (s.step .disable).tcb = 1 := by
      rw [hstep, h1]
      norm_num
    obtain ⟨hA1, hA2⟩ := run_nest_count i (s.step .disable) (by rw [hc1])
    have hone : preempt_count ((s.step .disable).run i.toOps).tcb = 1 := by
      rw [hA1, hc1]
    have h3 := enable_at_one_count ((s.step .disable).run i.toOps).tcb hone
    obtain ⟨g1, g2, g3⟩ := ih2 (((s.step .disable).run i.toOps).step .enable) h3.1 h3.2
    have hrun : s.run (SNest.wrap i r).toOps
        = ((((s.step .disable).run i.toOps).step .enable).run r.toOps) := by
      simp [SNest.toOps, run_cons, run_append]
    refine ⟨by rw [hrun]; exact g1, by rw [hrun]; exact g2, ?_⟩
    refine ⟨by rw [hc1]; omega, ?_⟩
    have hx : preempt_count (((s.step TcbOp.disable).run i.toOps).step TcbOp.enable).tcb = 0 :=
      h3.1
    rw [nonnegAfter_append]
    exact ⟨hA2, ⟨by rw [hx], g3⟩⟩

theorem runMem_tls_addr (ops : List TcbOp) :
    ∀ tm : ThreadMem, (tm.runMem ops).tls_addr = tm.tls_addr := by
  induction ops with
  | nil => intro tm; rfl
  | cons op l ih => intro tm; exact ih (tm.stepMem op)

/-- The `self` field of the TCB at the thread's TLS location is never
changed by any operation of this core. -/
theorem runMem_self (ops : List TcbOp) :
    ∀ tm : ThreadMem, ((tm.runMem ops).mem (tm.runMem ops).tls_addr).self
      = (tm.mem tm.tls_addr).self := by
  induction ops with
  | nil => intro tm; rfl
  | cons op l ih =>
    intro tm
    rw [show tm.runMem (op :: l) = (tm.stepMem op).runMem l from rfl, ih (tm.stepMem op)]
    show ((Function.update tm.mem tm.tls_addr (stepTcb op (tm.mem tm.tls_addr)))
        tm.tls_addr).self = _
    rw [Function.update_same]
    exact stepTcb_self op _

/-- Mask-based wraparound with mask NUM_LOCK_RECORD_MASK = 31 is exactly
reduction modulo NUM_LOCK_RECORD = 32 = 2^5. -/
theorem and_mask_eq_mod (i : Nat) :
    i &&& NUM_LOCK_RECORD_MASK = i % NUM_LOCK_RECORD := by
  have h := Nat.and_pow_two_sub_one_eq_mod i 5
  norm_num at h
  simpa [NUM_LOCK_RECORD_MASK, NUM_LOCK_RECORD] using h

/-- The embedded canary is unchanged by every operation run on the
embedded TCB. -/
theorem runLibc_canary (ops : List TcbOp) :
    ∀ m : __libc_tcb_t, (runLibc ops m).shim_tcb.canary = m.shim_tcb.canary := by
  induction ops with
  | nil => intro m; rfl
  | cons op l ih =>
    intro m
    rw [show runLibc (op :: l) m = runLibc l (stepLibc op m) from rfl, ih (stepLibc op m)]
    exact stepTcb_canary op m.shim_tcb

/-- C1: with an installed unsafe-region descriptor {start, end,
continuation}, the fault handler redirects to the continuation iff a
descriptor is active and the faulting address lies in the half-open
range [start, end); on redirecting it first clears the descriptor
(one-shot, so a second fault is never redirected), and a fault with no
active descriptor or at an address outside the range is never
redirected. -/
theorem fault_redirect_C1 (t : shim_tcb) (addr : Nat) :
    ((handle_fault t addr).2 ≠ none ↔
      test_range_active t.test_range = true ∧
        t.test_range.start ≤ addr ∧ addr < t.test_range.end_) ∧
    (test_range_active t.test_range = true → t.test_range.start ≤ addr →
      addr < t.test_range.end_ →
      handle_fault t addr = (end_probe t, some t.test_range.cont_addr)) ∧
    (test_range_active t.test_range = false → handle_fault t addr = (t, none)) ∧
    (addr < t.test_range.start ∨ t.test_range.end_ ≤ addr →
      handle_fault t addr = (t, none)) ∧
    ((handle_fault t addr).2 ≠ none →
      (handle_fault t addr).1.test_range = test_range_cleared) ∧
    (∀ addr2 : Nat, (handle_fault t addr).2 ≠ none →
      (handle_fault (handle_fault t addr).1 addr2).2 = none) := by
  by_cases hcond : test_range_active t.test_range = true ∧
      t.test_range.start ≤ addr ∧ addr < t.test_range.end_
  · have he : handle_fault t addr = (end_probe t, some t.test_range.cont_addr) := by
      rw [handle_fault, if_pos hcond]
    refine ⟨by rw [he]; simp [hcond], fun _ _ _ => he, ?_, ?_, ?_, ?_⟩
    · intro hfa
      rw [hfa] at hcond
      simp at hcond
    · intro hout
      rcases hout with h | h
      · exact absurd hcond.2.1 (by omega)
      · exact absurd hcond.2.2 (by omega)
    · intro _
      rw [he]
      rfl
    · intro addr2 _
      rw [he]
      show (handle_fault (end_probe t) addr2).2 = none
      rw [handle_fault, if_neg]
      rintro ⟨hact, -⟩
      simp [end_probe, test_range_active] at hact
  · have he : handle_fault t addr = (t, none) := by
      rw [handle_fault, if_neg hcond]
    refine ⟨by rw [he]; simp [hcond], ?_, fun _ => he, fun _ => he, ?_, ?_⟩
    · intro h1 h2 h3
      exact absurd ⟨h1, h2, h3⟩ hcond
    · intro hne
      rw [he] at hne
      simp at hne
    · intro addr2 hne
      rw [he] at hne
      simp at hne

theorem fault_redirect_C1_witness :
    handle_fault (begin_probe (init_tcb 0 7) 16 32 42) 20
      = (end_probe (begin_probe (init_tcb 0 7) 16 32 42), some 42) :=
  (fault_redirect_C1 (begin_probe (init_tcb 0 7) 16 32 42) 20).2.1
    rfl (by norm_num [begin_probe]) (by norm_num [begin_probe])

/-- C3: after `init_tcb`, `shim_tls_check_canary` returns true at every
subsequent point (across any sequence of operations of this core) until
the canary field is overwritten with a value different from
SHIM_TLS_CANARY, after which it returns false; the check reads only the
canary field and returns true exactly when that field equals the
constant. -/
theorem canary_stability_C3 :
    (∀ (m : __libc_tcb_t) (a tid : Nat) (ops : List TcbOp),
      shim_tls_check_canary (runLibc ops (init_libc m a tid)) = true) ∧
    (∀ m : __libc_tcb_t,
      shim_tls_check_canary m = true ↔ m.shim_tcb.canary = SHIM_TLS_CANARY) ∧
    (∀ (m : __libc_tcb_t) (c : Nat), c ≠ SHIM_TLS_CANARY →
      shim_tls_check_canary { m with shim_tcb := { m.shim_tcb with canary := c } }
        = false) ∧
    (∀ m1 m2 : __libc_tcb_t, m1.shim_tcb.canary = m2.shim_tcb.canary →
      shim_tls_check_canary m1 = shim_tls_check_canary m2) := by
  refine ⟨?_, ?_, ?_, ?_⟩
  · intro m a tid ops
    rw [shim_tls_check_canary, runLibc_canary]
    simp [init_libc, init_tcb]
  · intro m
    simp [shim_tls_check_canary]
  · intro m c hc
    simp [shim_tls_check_canary, hc]
  · intro m1 m2 h
    rw [shim_tls_check_canary, shim_tls_check_canary, h]

theorem canary_stability_C3_witness :
    shim_tls_check_canary (runLibc [.disable, .enable] (init_libc libc0 5 7)) = true ∧
    shim_tls_check_canary { libc0 with shim_tcb := { libc0.shim_tcb with canary := 1 } }
      = false :=
  ⟨canary_stability_C3.1 libc0 5 7 [.disable, .enable],
   canary_stability_C3.2.2.1 libc0 1 (by norm_num [SHIM_TLS_CANARY])⟩

/-- C9: the canary comparison is the full 64-bit canary field against the
32-bit constant 0xdeadbeef zero-extended: among 64-bit values the check
accepts exactly 0x00000000deadbeef, and any value whose low 32 bits are
0xdeadbeef but whose high 32 bits are non-zero is rejected. -/
theorem canary_width_C9 :
    (∀ m : __libc_tcb_t, m.shim_tcb.canary < 2 ^ 64 →
      (shim_tls_check_canary m = true ↔ m.shim_tcb.canary = 0xdeadbeef)) ∧
    (∀ m : __libc_tcb_t, m.shim_tcb.canary % 2 ^ 32 = 0xdeadbeef →
      m.shim_tcb.canary / 2 ^ 32 ≠ 0 → shim_tls_check_canary m = false) ∧
    SHIM_TLS_CANARY = 0xdeadbeef ∧ SHIM_TLS_CANARY < 2 ^ 32 := by
  refine ⟨?_, ?_, rfl, by norm_num [SHIM_TLS_CANARY]⟩
  · intro m _
    simp [shim_tls_check_canary, SHIM_TLS_CANARY]
  · intro m hlow hhigh
    simp only [shim_tls_check_canary, SHIM_TLS_CANARY, beq_eq_false_iff_ne, ne_eq]
    omega

theorem canary_width_C9_witness :
    shim_tls_check_canary libcBig = false ∧ shim_tls_check_canary libc0 = true :=
  ⟨canary_width_C9.2.1 libcBig (by norm_num [libcBig]) (by norm_num [libcBig]),
   (canary_width_C9.1 libc0 (by norm_num [libc0, init_tcb, SHIM_TLS_CANARY])).mpr
     (by norm_num [libc0, init_tcb, SHIM_TLS_CANARY])⟩

/-- C10: for every index i, `i &&& NUM_LOCK_RECORD_MASK` equals
`i % NUM_LOCK_RECORD`, because NUM_LOCK_RECORD is 32 = 2^5 and
NUM_LOCK_RECORD_MASK is NUM_LOCK_RECORD - 1 = 31: mask-based wraparound
on the lock audit trail is ring arithmetic modulo the capacity. -/
theorem mask_mod_C10 (i : Nat) :
    i &&& NUM_LOCK_RECORD_MASK = i % NUM_LOCK_RECORD ∧
    NUM_LOCK_RECORD = 32 ∧ NUM_LOCK_RECORD_MASK = NUM_LOCK_RECORD - 1 ∧
    NUM_LOCK_RECORD = 2 ^ 5 :=
  ⟨and_mask_eq_mod i, rfl, rfl, by norm_num [NUM_LOCK_RECORD]⟩

theorem mask_mod_C10_witness :
    37 &&& NUM_LOCK_RECORD_MASK = 37 % NUM_LOCK_RECORD :=
  (mask_mod_C10 37).1

/-- C8: the register snapshot consists of exactly eighteen machine-word
fields in the order orig_rax, rsp, r15, r14, r13, r12, r11, r10, r9, r8,
rcx, rdx, rsi, rdi, rbx, rbp, rflags, rip (the field list determines the
snapshot and every 18-word sequence is a snapshot), and no operation of
this core mutates a captured snapshot. -/
theorem regs_layout_C8 :
    (∀ r : shim_regs, r.toList.length = 18) ∧
    (∀ r1 r2 : shim_regs, r1.toList = r2.toList → r1 = r2) ∧
    (∀ a0 a1 a2 a3 a4 a5 a6 a7 a8 a9 a10 a11 a12 a13 a14 a15 a16 a17 : Nat,
      shim_regs.toList
          ⟨a0, a1, a2, a3, a4, a5, a6, a7, a8, a9, a10, a11, a12, a13, a14, a15, a16, a17⟩
        = [a0, a1, a2, a3, a4, a5, a6, a7, a8, a9, a10, a11, a12, a13, a14, a15, a16, a17]) ∧
    (∀ (op : TcbOp) (t : shim_tcb), (stepTcb op t).context.regs = t.context.regs) := by
  refine ⟨fun r => rfl, ?_, fun a0 a1 a2 a3 a4 a5 a6 a7 a8 a9 a10 a11 a12 a13 a14 a15 a16 a17 => rfl,
    stepTcb_regs⟩
  intro r1 r2 h
  cases r1
  cases r2
  simp only [shim_regs.toList, List.cons.injEq, and_true] at h
  obtain ⟨rfl, rfl, rfl, rfl, rfl, rfl, rfl, rfl, rfl, rfl, rfl, rfl, rfl, rfl, rfl, rfl,
    rfl, rfl⟩ := h
  rfl

theorem regs_layout_C8_witness :
    shim_regs.toList ⟨1, 2, 3, 4, 5, 6, 7, 8, 9, 10, 11, 12, 13, 14, 15, 16, 17, 18⟩
      = [1, 2, 3, 4, 5, 6, 7, 8, 9, 10, 11, 12, 13, 14, 15, 16, 17, 18] :=
  regs_layout_C8.2.2.1 1 2 3 4 5 6 7 8 9 10 11 12 13 14 15 16 17 18

/-- After initialization at the thread's TLS location, the self field of
the current TCB always equals that location's address, across any
sequence of operations of this core. -/
theorem current_self_eq (tm : ThreadMem) (tid : Nat) (ops : List TcbOp) :
    (current ((initMem tm tid).runMem ops)).self = tm.tls_addr := by
  have haddr : ((initMem tm tid).runMem ops).tls_addr = tm.tls_addr := by
    rw [runMem_tls_addr]
    rfl
  have hmem_self : (((initMem tm tid).runMem ops).mem
      ((initMem tm tid).runMem ops).tls_addr).self = tm.tls_addr := by
    rw [runMem_self]
    show ((Function.update tm.mem tm.tls_addr (init_tcb tm.tls_addr tid))
      tm.tls_addr).self = tm.tls_addr
    rw [Function.update_same]
    rfl
  have hget : shim_get_tls_mem ((initMem tm tid).runMem ops) = tm.tls_addr :=
    hmem_self
  calc (current ((initMem tm tid).runMem ops)).self
      = (((initMem tm tid).runMem ops).mem tm.tls_addr).self := by
        rw [current, hget]
    _ = (((initMem tm tid).runMem ops).mem
          ((initMem tm tid).runMem ops).tls_addr).self := by rw [haddr]
    _ = tm.tls_addr := hmem_self

/-- C4: after init, `current().self` equals the address of `current()`
(the pointer `shim_get_tls` returns) at every later point: the self
field written at initialization is never mutated by any operation of
this core, and the fs-relative `shim_get_tls` read resolves the current
TCB by reading exactly that field. -/
theorem self_invariant_C4 (tm : ThreadMem) (tid : Nat) (ops : List TcbOp) :
    (current ((initMem tm tid).runMem ops)).self
        = shim_get_tls_mem ((initMem tm tid).runMem ops) ∧
    shim_get_tls_mem ((initMem tm tid).runMem ops) = tm.tls_addr ∧
    (current ((initMem tm tid).runMem ops)).self = (current (initMem tm tid)).self ∧
    (∀ t1 t2 : ThreadMem, (t1.mem t1.tls_addr).self = (t2.mem t2.tls_addr).self →
      shim_get_tls_mem t1 = shim_get_tls_mem t2) := by
  have hget : shim_get_tls_mem ((initMem tm tid).runMem ops) = tm.tls_addr := by
    rw [shim_get_tls_mem, runMem_self]
    show ((Function.update tm.mem tm.tls_addr (init_tcb tm.tls_addr tid))
      tm.tls_addr).self = tm.tls_addr
    rw [Function.update_same]
    rfl
  refine ⟨?_, hget, ?_, fun t1 t2 h => h⟩
  · rw [current_self_eq tm tid ops, hget]
  · rw [current_self_eq tm tid ops]
    exact (current_self_eq tm tid []).symm

theorem self_invariant_C4_witness :
    (current ((initMem mem0 7).runMem [.disable, .enable])).self
        = shim_get_tls_mem ((initMem mem0 7).runMem [.disable, .enable]) ∧
    shim_get_tls_mem ((initMem mem0 7).runMem [.disable, .enable]) = 1000 :=
  ⟨(self_invariant_C4 mem0 7 [.disable, .enable]).1,
   (self_invariant_C4 mem0 7 [.disable, .enable]).2.1⟩

/-- C2: on one thread, after `disable_preempt` (count 0 to 1), a signal
arrival setting the pending flag, any properly nested signal-free
disable/enable pairs, and the final `enable_preempt` crossing 1 to 0:
the deferred signal is delivered exactly once, at the 1-to-0 crossing
and not before; the pending flag is cleared; and the nested calls at
count above 1 cause no delivery and no state-machine transition (the
machine state is unchanged by them). -/
theorem deferred_delivery_C2 (mid : SNest) (s0 : MachState)
    (hfree : mid.sigFree) (h0 : preempt_count s0.tcb = 0)
    (hp : sigpending s0.tcb = false) :
    (s0.step .disable).delivered = s0.delivered ∧
    ((s0.step .disable).step .signal).delivered = s0.delivered ∧
    sigpending ((s0.step .disable).step .signal).tcb = true ∧
    ((s0.step .disable).step .signal).run mid.toOps = (s0.step .disable).step .signal ∧
    ((((s0.step .disable).step .signal).run mid.toOps).step .enable).delivered
      = s0.delivered + 1 ∧
    sigpending ((((s0.step .disable).step .signal).run mid.toOps).step .enable).tcb
      = false ∧
    preempt_count ((((s0.step .disable).step .signal).run mid.toOps).step .enable).tcb
      = 0 := by
  obtain ⟨t0, d0⟩ := s0
  have h0' : preempt_count t0 = 0 := h0
  have e1 : (⟨t0, d0⟩ : MachState).step .disable = ⟨disable_preempt t0, d0⟩ :=
    step_disable _
  have hc1 : preempt_count (disable_preempt t0) = 1 := by
    rw [preempt_count_disable, h0']
    norm_num
  have e2 : ((⟨t0, d0⟩ : MachState).step .disable).step .signal
      = ⟨set_sigpending (disable_preempt t0), d0⟩ := by
    rw [e1]
    show MachState.step _ .signal = _
    simp only [MachState.step, stepTcb]
    rw [signal_arrive, if_pos (by rw [hc1]; norm_num)]
    have hdel : delivers .signal (disable_preempt t0) = false := by
      simp [delivers, hc1]
    rw [hdel]
    simp
  have hc2 : preempt_count (set_sigpending (disable_preempt t0)) = 1 := by
    rw [preempt_count_set_sigpending, hc1]
  have hp2 : sigpending (set_sigpending (disable_preempt t0)) = true :=
    sigpending_set_sigpending _
  have e3 : (((⟨t0, d0⟩ : MachState).step .disable).step .signal).run mid.toOps
      = ((⟨t0, d0⟩ : MachState).step .disable).step .signal := by
    apply run_sigFree_id mid hfree
    rw [e2]
    show 1 ≤ preempt_count (set_sigpending (disable_preempt t0))
    rw [hc2]
  have he := enable_at_one_pending _ hc2 hp2
  have e4 : (((⟨t0, d0⟩ : MachState).step .disable).step .signal).step .enable
      = ⟨clear_sigpending (set_preempt (set_sigpending (disable_preempt t0)) 0),
          d0 + 1⟩ := by
    rw [e2]
    show MachState.step _ .enable = _
    simp only [MachState.step, stepTcb]
    rw [he.1, he.2]
    simp
  refine ⟨by rw [e1], by rw [e2], by rw [e2]; exact hp2, e3, ?_, ?_, ?_⟩
  · rw [e3, e4]
  · rw [e3, e4]
    exact sigpending_clear_sigpending _
  · rw [e3, e4]
    show preempt_count (clear_sigpending (set_preempt _ 0)) = 0
    rw [preempt_count_clear_sigpending, preempt_count_set_preempt]

theorem deferred_delivery_C2_witness :
    (((((⟨init_tcb 0 0, 0⟩ : MachState).step .disable).step .signal).run
        SNest.done.toOps).step .enable).delivered = 0 + 1 ∧
    sigpending (((((⟨init_tcb 0 0, 0⟩ : MachState).step .disable).step .signal).run
        SNest.done.toOps).step .enable).tcb = false :=
  ⟨(deferred_delivery_C2 .done ⟨init_tcb 0 0, 0⟩ trivial rfl (by decide)).2.2.2.2.1,
   (deferred_delivery_C2 .done ⟨init_tcb 0 0, 0⟩ trivial rfl (by decide)).2.2.2.2.2.1⟩

/-- C5: for every properly nested sequence of disable/enable pairs on
one thread (with signal arrivals allowed at arbitrary points), starting
idle, the preempt-count returns to 0 at the end, is never negative at
any intermediate point, and no signal-pending flag remains set at the
end; an enable without a matching disable is never silently clamped to
zero — from count 0 the counter becomes -1. -/
theorem preempt_balance_C5 :
    (∀ (n : SNest) (s : MachState), preempt_count s.tcb = 0 → sigpending s.tcb = false →
      preempt_count (s.run n.toOps).tcb = 0 ∧
      sigpending (s.run n.toOps).tcb = false ∧
      nonnegAfter s n.toOps) ∧
    (∀ t : shim_tcb, ¬(preempt_count t = 1 ∧ sigpending t = true) →
      preempt_count (enable_preempt t) = preempt_count t - 1) ∧
    (∀ t : shim_tcb, preempt_count t = 0 →
      preempt_count (enable_preempt t) = -1) := by
  refine ⟨fun n s h1 h2 => run_nest_balanced n s h1 h2, ?_, ?_⟩
  · intro t h
    rw [enable_preempt, if_neg h, preempt_count_set_preempt]
  · intro t h0
    rw [enable_preempt, if_neg (by rintro ⟨h1, -⟩; rw [h0] at h1; norm_num at h1),
      preempt_count_set_preempt, h0]
    norm_num

theorem preempt_balance_C5_witness :
    preempt_count ((⟨init_tcb 0 0, 0⟩ : MachState).run
        (SNest.wrap .done .done).toOps).tcb = 0 ∧
    preempt_count (enable_preempt (init_tcb 0 0)) = -1 :=
  ⟨(preempt_balance_C5.1 (SNest.wrap .done .done) ⟨init_tcb 0 0, 0⟩ rfl (by decide)).1,
   preempt_balance_C5.2.2 (init_tcb 0 0) rfl⟩

/-- C7 (counterexample): two host-runtime blocks that agree on every
member — including the whole embedded shim TCB — except the
glibc-internal `tcb` field are distinguished by `shim_libc_tcb`, an
operation defined in this header, which returns that host field's
value: it therefore reads one of the ten glibc-internal fields,
contrary to the claim that no operation of this core reads any of
them. -/
theorem host_frame_C7_cex :
    (c7_libc 0).dtv = (c7_libc 1).dtv ∧
    (c7_libc 0).self = (c7_libc 1).self ∧
    (c7_libc 0).mthreads = (c7_libc 1).mthreads ∧
    (c7_libc 0).gscope = (c7_libc 1).gscope ∧
    (c7_libc 0).sysinfo = (c7_libc 1).sysinfo ∧
    (c7_libc 0).sg = (c7_libc 1).sg ∧
    (c7_libc 0).pg = (c7_libc 1).pg ∧
    (c7_libc 0).vgetcpu_cache = (c7_libc 1).vgetcpu_cache ∧
    (c7_libc 0).__unused1 = (c7_libc 1).__unused1 ∧
    (c7_libc 0).shim_tcb = (c7_libc 1).shim_tcb ∧
    shim_libc_tcb (c7_libc 0) ≠ shim_libc_tcb (c7_libc 1) := by
  refine ⟨rfl, rfl, rfl, rfl, rfl, rfl, rfl, rfl, rfl, rfl, ?_⟩
  simp [shim_libc_tcb, c7_libc]

/-- C7 (amended): the shim TCB is embedded as the last member after the
ten glibc-internal fields; no operation of this core modifies any of the
ten host-runtime fields (every state-changing shim operation leaves all
ten unchanged), and `shim_tls_check_canary` and `shim_get_tls` read only
the embedded shim TCB; the one exception to read non-interference is
`shim_libc_tcb`, whose result depends only on the host `tcb` field it
reads. -/
theorem host_frame_C7 :
    (∀ m1 m2 : __libc_tcb_t, m1.shim_tcb = m2.shim_tcb →
      shim_tls_check_canary m1 = shim_tls_check_canary m2 ∧
        shim_get_tls m1 = shim_get_tls m2) ∧
    (∀ (op : TcbOp) (m : __libc_tcb_t),
      (stepLibc op m).tcb = m.tcb ∧ (stepLibc op m).dtv = m.dtv ∧
      (stepLibc op m).self = m.self ∧ (stepLibc op m).mthreads = m.mthreads ∧
      (stepLibc op m).gscope = m.gscope ∧ (stepLibc op m).sysinfo = m.sysinfo ∧
      (stepLibc op m).sg = m.sg ∧ (stepLibc op m).pg = m.pg ∧
      (stepLibc op m).vgetcpu_cache = m.vgetcpu_cache ∧
      (stepLibc op m).__unused1 = m.__unused1) ∧
    (∀ (m : __libc_tcb_t) (a tid : Nat),
      (init_libc m a tid).tcb = m.tcb ∧ (init_libc m a tid).dtv = m.dtv ∧
      (init_libc m a tid).self = m.self ∧ (init_libc m a tid).mthreads = m.mthreads ∧
      (init_libc m a tid).gscope = m.gscope ∧ (init_libc m a tid).sysinfo = m.sysinfo ∧
      (init_libc m a tid).sg = m.sg ∧ (init_libc m a tid).pg = m.pg ∧
      (init_libc m a tid).vgetcpu_cache = m.vgetcpu_cache ∧
      (init_libc m a tid).__unused1 = m.__unused1) ∧
    (∀ m1 m2 : __libc_tcb_t, m1.tcb = m2.tcb →
      shim_libc_tcb m1 = shim_libc_tcb m2) := by
  refine ⟨?_, ?_, ?_, ?_⟩
  · intro m1 m2 h
    constructor
    · rw [shim_tls_check_canary, shim_tls_check_canary, h]
    · rw [shim_get_tls, shim_get_tls, h]
  · intro op m
    exact ⟨rfl, rfl, rfl, rfl, rfl, rfl, rfl, rfl, rfl, rfl⟩
  · intro m a tid
    exact ⟨rfl, rfl, rfl, rfl, rfl, rfl, rfl, rfl, rfl, rfl⟩
  · intro m1 m2 h
    rw [shim_libc_tcb, shim_libc_tcb, h]

theorem host_frame_C7_witness :
    shim_tls_check_canary (c7_libc 0) = shim_tls_check_canary (c7_libc 1) ∧
    shim_get_tls (c7_libc 0) = shim_get_tls (c7_libc 1) :=
  host_frame_C7.1 (c7_libc 0) (c7_libc 1) rfl

set_option maxHeartbeats 4000000 in
/-- C6: `record` always appends exactly one entry — it writes the entry
at slot `pos & NUM_LOCK_RECORD_MASK`, leaves every other slot unchanged,
advances `pos` — and never fails; recording 33 entries in sequence on a
fresh 32-slot trail leaves exactly the 32 most recent entries: slot 0
holds entry 32, which overwrote entry 0, the single evicted (oldest)
entry, while slots 1..31 still hold entries 1..31 (FIFO eviction via
index masking). -/
theorem ring_buffer_C6 :
    (∀ (x : lock_record) (tr : lock_trail),
      (record x tr).slots (tr.pos &&& NUM_LOCK_RECORD_MASK) = x ∧
      (∀ j : Nat, j ≠ tr.pos &&& NUM_LOCK_RECORD_MASK →
        (record x tr).slots j = tr.slots j) ∧
      (record x tr).pos = tr.pos + 1) ∧
    (∀ (e : Fin 33 → lock_record) (tr : lock_trail), tr.pos = 0 →
      (recordAll [e 0, e 1, e 2, e 3, e 4, e 5, e 6, e 7, e 8, e 9, e 10, e 11, e 12, e 13, e 14, e 15, e 16, e 17, e 18, e 19, e 20, e 21, e 22, e 23, e 24, e 25, e 26, e 27, e 28, e 29, e 30, e 31, e 32] tr).pos = 33 ∧
      (recordAll [e 0, e 1, e 2, e 3, e 4, e 5, e 6, e 7, e 8, e 9, e 10, e 11, e 12, e 13, e 14, e 15, e 16, e 17, e 18, e 19, e 20, e 21, e 22, e 23, e 24, e 25, e 26, e 27, e 28, e 29, e 30, e 31, e 32] tr).slots 0 = e 32 ∧
      (recordAll [e 0, e 1, e 2, e 3, e 4, e 5, e 6, e 7, e 8, e 9, e 10, e 11, e 12, e 13, e 14, e 15, e 16, e 17, e 18, e 19, e 20, e 21, e 22, e 23, e 24, e 25, e 26, e 27, e 28, e 29, e 30, e 31, e 32] tr).slots 1 = e 1 ∧
      (recordAll [e 0, e 1, e 2, e 3, e 4, e 5, e 6, e 7, e 8, e 9, e 10, e 11, e 12, e 13, e 14, e 15, e 16, e 17, e 18, e 19, e 20, e 21, e 22, e 23, e 24, e 25, e 26, e 27, e 28, e 29, e 30, e 31, e 32] tr).slots 2 = e 2 ∧
      (recordAll [e 0, e 1, e 2, e 3, e 4, e 5, e 6, e 7, e 8, e 9, e 10, e 11, e 12, e 13, e 14, e 15, e 16, e 17, e 18, e 19, e 20, e 21, e 22, e 23, e 24, e 25, e 26, e 27, e 28, e 29, e 30, e 31, e 32] tr).slots 3 = e 3 ∧
      (recordAll [e 0, e 1, e 2, e 3, e 4, e 5, e 6, e 7, e 8, e 9, e 10, e 11, e 12, e 13, e 14, e 15, e 16, e 17, e 18, e 19, e 20, e 21, e 22, e 23, e 24, e 25, e 26, e 27, e 28, e 29, e 30, e 31, e 32] tr).slots 4 = e 4 ∧
      (recordAll [e 0, e 1, e 2, e 3, e 4, e 5, e 6, e 7, e 8, e 9, e 10, e 11, e 12, e 13, e 14, e 15, e 16, e 17, e 18, e 19, e 20, e 21, e 22, e 23, e 24, e 25, e 26, e 27, e 28, e 29, e 30, e 31, e 32] tr).slots 5 = e 5 ∧
      (recordAll [e 0, e 1, e 2, e 3, e 4, e 5, e 6, e 7, e 8, e 9, e 10, e 11, e 12, e 13, e 14, e 15, e 16, e 17, e 18, e 19, e 20, e 21, e 22, e 23, e 24, e 25, e 26, e 27, e 28, e 29, e 30, e 31, e 32] tr).slots 6 = e 6 ∧
      (recordAll [e 0, e 1, e 2, e 3, e 4, e 5, e 6, e 7, e 8, e 9, e 10, e 11, e 12, e 13, e 14, e 15, e 16, e 17, e 18, e 19, e 20, e 21, e 22, e 23, e 24, e 25, e 26, e 27, e 28, e 29, e 30, e 31, e 32] tr).slots 7 = e 7 ∧
      (recordAll [e 0, e 1, e 2, e 3, e 4, e 5, e 6, e 7, e 8, e 9, e 10, e 11, e 12, e 13, e 14, e 15, e 16, e 17, e 18, e 19, e 20, e 21, e 22, e 23, e 24, e 25, e 26, e 27, e 28, e 29, e 30, e 31, e 32] tr).slots 8 = e 8 ∧
      (recordAll [e 0, e 1, e 2, e 3, e 4, e 5, e 6, e 7, e 8, e 9, e 10, e 11, e 12, e 13, e 14, e 15, e 16, e 17, e 18, e 19, e 20, e 21, e 22, e 23, e 24, e 25, e 26, e 27, e 28, e 29, e 30, e 31, e 32] tr).slots 9 = e 9 ∧
      (recordAll [e 0, e 1, e 2, e 3, e 4, e 5, e 6, e 7, e 8, e 9, e 10, e 11, e 12, e 13, e 14, e 15, e 16, e 17, e 18, e 19, e 20, e 21, e 22, e 23, e 24, e 25, e 26, e 27, e 28, e 29, e 30, e 31, e 32] tr).slots 10 = e 10 ∧
      (recordAll [e 0, e 1, e 2, e 3, e 4, e 5, e 6, e 7, e 8, e 9, e 10, e 11, e 12, e 13, e 14, e 15, e 16, e 17, e 18, e 19, e 20, e 21, e 22, e 23, e 24, e 25, e 26, e 27, e 28, e 29, e 30, e 31, e 32] tr).slots 11 = e 11 ∧
      (recordAll [e 0, e 1, e 2, e 3, e 4, e 5, e 6, e 7, e 8, e 9, e 10, e 11, e 12, e 13, e 14, e 15, e 16, e 17, e 18, e 19, e 20, e 21, e 22, e 23, e 24, e 25, e 26, e 27, e 28, e 29, e 30, e 31, e 32] tr).slots 12 = e 12 ∧
      (recordAll [e 0, e 1, e 2, e 3, e 4, e 5, e 6, e 7, e 8, e 9, e 10, e 11, e 12, e 13, e 14, e 15, e 16, e 17, e 18, e 19, e 20, e 21, e 22, e 23, e 24, e 25, e 26, e 27, e 28, e 29, e 30, e 31, e 32] tr).slots 13 = e 13 ∧
      (recordAll [e 0, e 1, e 2, e 3, e 4, e 5, e 6, e 7, e 8, e 9, e 10, e 11, e 12, e 13, e 14, e 15, e 16, e 17, e 18, e 19, e 20, e 21, e 22, e 23, e 24, e 25, e 26, e 27, e 28, e 29, e 30, e 31, e 32] tr).slots 14 = e 14 ∧
      (recordAll [e 0, e 1, e 2, e 3, e 4, e 5, e 6, e 7, e 8, e 9, e 10, e 11, e 12, e 13, e 14, e 15, e 16, e 17, e 18, e 19, e 20, e 21, e 22, e 23, e 24, e 25, e 26, e 27, e 28, e 29, e 30, e 31, e 32] tr).slots 15 = e 15 ∧
      (recordAll [e 0, e 1, e 2, e 3, e 4, e 5, e 6, e 7, e 8, e 9, e 10, e 11, e 12, e 13, e 14, e 15, e 16, e 17, e 18, e 19, e 20, e 21, e 22, e 23, e 24, e 25, e 26, e 27, e 28, e 29, e 30, e 31, e 32] tr).slots 16 = e 16 ∧
      (recordAll [e 0, e 1, e 2, e 3, e 4, e 5, e 6, e 7, e 8, e 9, e 10, e 11, e 12, e 13, e 14, e 15, e 16, e 17, e 18, e 19, e 20, e 21, e 22, e 23, e 24, e 25, e 26, e 27, e 28, e 29, e 30, e 31, e 32] tr).slots 17 = e 17 ∧
      (recordAll [e 0, e 1, e 2, e 3, e 4, e 5, e 6, e 7, e 8, e 9, e 10, e 11, e 12, e 13, e 14, e 15, e 16, e 17, e 18, e 19, e 20, e 21, e 22, e 23, e 24, e 25, e 26, e 27, e 28, e 29, e 30, e 31, e 32] tr).slots 18 = e 18 ∧
      (recordAll [e 0, e 1, e 2, e 3, e 4, e 5, e 6, e 7, e 8, e 9, e 10, e 11, e 12, e 13, e 14, e 15, e 16, e 17, e 18, e 19, e 20, e 21, e 22, e 23, e 24, e 25, e 26, e 27, e 28, e 29, e 30, e 31, e 32] tr).slots 19 = e 19 ∧
      (recordAll [e 0, e 1, e 2, e 3, e 4, e 5, e 6, e 7, e 8, e 9, e 10, e 11, e 12, e 13, e 14, e 15, e 16, e 17, e 18, e 19, e 20, e 21, e 22, e 23, e 24, e 25, e 26, e 27, e 28, e 29, e 30, e 31, e 32] tr).slots 20 = e 20 ∧
      (recordAll [e 0, e 1, e 2, e 3, e 4, e 5, e 6, e 7, e 8, e 9, e 10, e 11, e 12, e 13, e 14, e 15, e 16, e 17, e 18, e 19, e 20, e 21, e 22, e 23, e 24, e 25, e 26, e 27, e 28, e 29, e 30, e 31, e 32] tr).slots 21 = e 21 ∧
      (recordAll [e 0, e 1, e 2, e 3, e 4, e 5, e 6, e 7, e 8, e 9, e 10, e 11, e 12, e 13, e 14, e 15, e 16, e 17, e 18, e 19, e 20, e 21, e 22, e 23, e 24, e 25, e 26, e 27, e 28, e 29, e 30, e 31, e 32] tr).slots 22 = e 22 ∧
      (recordAll [e 0, e 1, e 2, e 3, e 4, e 5, e 6, e 7, e 8, e 9, e 10, e 11, e 12, e 13, e 14, e 15, e 16, e 17, e 18, e 19, e 20, e 21, e 22, e 23, e 24, e 25, e 26, e 27, e 28, e 29, e 30, e 31, e 32] tr).slots 23 = e 23 ∧
      (recordAll [e 0, e 1, e 2, e 3, e 4, e 5, e 6, e 7, e 8, e 9, e 10, e 11, e 12, e 13, e 14, e 15, e 16, e 17, e 18, e 19, e 20, e 21, e 22, e 23, e 24, e 25, e 26, e 27, e 28, e 29, e 30, e 31, e 32] tr).slots 24 = e 24 ∧
      (recordAll [e 0, e 1, e 2, e 3, e 4, e 5, e 6, e 7, e 8, e 9, e 10, e 11, e 12, e 13, e 14, e 15, e 16, e 17, e 18, e 19, e 20, e 21, e 22, e 23, e 24, e 25, e 26, e 27, e 28, e 29, e 30, e 31, e 32] tr).slots 25 = e 25 ∧
      (recordAll [e 0, e 1, e 2, e 3, e 4, e 5, e 6, e 7, e 8, e 9, e 10, e 11, e 12, e 13, e 14, e 15, e 16, e 17, e 18, e 19, e 20, e 21, e 22, e 23, e 24, e 25, e 26, e 27, e 28, e 29, e 30, e 31, e 32] tr).slots 26 = e 26 ∧
      (recordAll [e 0, e 1, e 2, e 3, e 4, e 5, e 6, e 7, e 8, e 9, e 10, e 11, e 12, e 13, e 14, e 15, e 16, e 17, e 18, e 19, e 20, e 21, e 22, e 23, e 24, e 25, e 26, e 27, e 28, e 29, e 30, e 31, e 32] tr).slots 27 = e 27 ∧
      (recordAll [e 0, e 1, e 2, e 3, e 4, e 5, e 6, e 7, e 8, e 9, e 10, e 11, e 12, e 13, e 14, e 15, e 16, e 17, e 18, e 19, e 20, e 21, e 22, e 23, e 24, e 25, e 26, e 27, e 28, e 29, e 30, e 31, e 32] tr).slots 28 = e 28 ∧
      (recordAll [e 0, e 1, e 2, e 3, e 4, e 5, e 6, e 7, e 8, e 9, e 10, e 11, e 12, e 13, e 14, e 15, e 16, e 17, e 18, e 19, e 20, e 21, e 22, e 23, e 24, e 25, e 26, e 27, e 28, e 29, e 30, e 31, e 32] tr).slots 29 = e 29 ∧
      (recordAll [e 0, e 1, e 2, e 3, e 4, e 5, e 6, e 7, e 8, e 9, e 10, e 11, e 12, e 13, e 14, e 15, e 16, e 17, e 18, e 19, e 20, e 21, e 22, e 23, e 24, e 25, e 26, e 27, e 28, e 29, e 30, e 31, e 32] tr).slots 30 = e 30 ∧
      (recordAll [e 0, e 1, e 2, e 3, e 4, e 5, e 6, e 7, e 8, e 9, e 10, e 11, e 12, e 13, e 14, e 15, e 16, e 17, e 18, e 19, e 20, e 21, e 22, e 23, e 24, e 25, e 26, e 27, e 28, e 29, e 30, e 31, e 32] tr).slots 31 = e 31) := by
  constructor
  · intro x tr
    refine ⟨by simp [record], fun j hj => by simp [record, hj], rfl⟩
  · intro e tr h
    obtain ⟨sl, p⟩ := tr
    have hp : p = 0 := h
    subst hp
    refine ⟨?_, ?_, ?_, ?_, ?_, ?_, ?_, ?_, ?_, ?_, ?_, ?_, ?_, ?_, ?_, ?_, ?_, ?_, ?_, ?_, ?_, ?_, ?_, ?_, ?_, ?_, ?_, ?_, ?_, ?_, ?_, ?_, ?_⟩ <;>
      simp [recordAll, record, and_mask_eq_mod, NUM_LOCK_RECORD]

theorem ring_buffer_C6_witness :
    (recordAll [rec0, rec0, rec0, rec0, rec0, rec0, rec0, rec0, rec0, rec0, rec0, rec0, rec0, rec0, rec0, rec0, rec0, rec0, rec0, rec0, rec0, rec0, rec0, rec0, rec0, rec0, rec0, rec0, rec0, rec0, rec0, rec0, rec0] trail0).pos = 33 ∧
    (record rec0 trail0).pos = 0 + 1 :=
  ⟨(ring_buffer_C6.2 (fun _ => rec0) trail0 rfl).1,
   (ring_buffer_C6.1 rec0 trail0).2.2⟩

end Graphene
